import Mathlib

attribute [local semireducible] Rat.mul Rat.add Rat.inv Rat.sub

/-!
Verification of the Debtify persistence and query layer (`src/main.py`).

The Python program keeps categories and transactions in an SQLite database.
This file gives a shallow embedding of the `Database` class and of the
amount-parsing path of `EditTransactionWindow.get_info`, and proves the
specification claims about them.

Modelling conventions:
* amounts: the program converts user `Decimal` values with `float(...)` before
  storing them in a `REAL` column, and SQL `SUM` accumulates in binary64.
  We represent every binary64 value by its exact rational value, and model the
  `float` conversion by `fl`, correctly-rounded (round to nearest, ties to
  even) conversion to 53-bit significands.  Overflow to infinity and
  subnormal underflow are outside the modelled (normal) range.
* `sqlite3.connect` never executes `PRAGMA foreign_keys=ON`, and SQLite leaves
  foreign-key enforcement off by default, so the declared
  `ON DELETE SET NULL` action never fires; `del_cat` is modelled accordingly.
* SQLite rows are scanned in rowid (insertion) order; lists in the `DB` state
  are kept in that order, with `nextCatId`/`nextTxId` modelling AUTOINCREMENT.
* text is modelled by Lean `String`; SQLite BINARY collation on UTF-8 text
  agrees with codepoint-lexicographic order, which is the order used here.
-/

/-! ## Binary64 rounding model -/

/-- Fuel-driven base-2 logarithm on naturals; `natLog2F n n` equals
`Nat.log2 n` and reduces by kernel computation. -/
def natLog2F : Nat → Nat → Nat
  | 0, _ => 0
  | fuel + 1, n => if 2 ≤ n then natLog2F fuel (n / 2) + 1 else 0

/-- Base-2 logarithm (floor) of a natural number, `0` on `0` and `1`. -/
def natLog2 (n : Nat) : Nat := natLog2F n n

/-- Fuel-driven base-10 logarithm on naturals. -/
def natLog10F : Nat → Nat → Nat
  | 0, _ => 0
  | fuel + 1, n => if 10 ≤ n then natLog10F fuel (n / 10) + 1 else 0

/-- Base-10 logarithm (floor) of a natural number, `0` on `0`..`9`. -/
def natLog10 (n : Nat) : Nat := natLog10F n n

/-- Integer power of two as a rational, for signed exponents. -/
def pow2 (e : Int) : ℚ :=
  if 0 ≤ e then ((2 ^ e.toNat : Nat) : ℚ) else 1 / ((2 ^ (-e).toNat : Nat) : ℚ)

/-- Integer power of ten as a rational, for signed exponents. -/
def pow10 (e : Int) : ℚ :=
  if 0 ≤ e then ((10 ^ e.toNat : Nat) : ℚ) else 1 / ((10 ^ (-e).toNat : Nat) : ℚ)

/-- Round a rational to the nearest integer, ties to even. -/
def roundHalfEven (q : ℚ) : Int :=
  let n := ⌊q⌋
  let f := q - n
  if f < 1 / 2 then n
  else if 1 / 2 < f then n + 1
  else if n % 2 = 0 then n else n + 1

/-- Floor of the base-2 logarithm of a positive rational. -/
def floorLog2 (q : ℚ) : Int :=
  let t : Int := (natLog2 q.num.natAbs : Int) - (natLog2 q.den : Int)
  if pow2 t ≤ q then t else t - 1

/-- Floor of the base-10 logarithm of a positive rational. -/
def floorLog10 (q : ℚ) : Int :=
  let t : Int := (natLog10 q.num.natAbs : Int) - (natLog10 q.den : Int) - 1
  if pow10 (t + 1) ≤ q then t + 1 else t

/-- Correctly rounded conversion of a rational to an IEEE binary64 value
(represented by its exact rational value): round to nearest, ties to even,
53-bit significand.  Models Python `float(...)` and SQLite REAL arithmetic
results on the normal range. -/
def fl (q : ℚ) : ℚ :=
  if q = 0 then 0
  else
    let s : ℚ := if q < 0 then -1 else 1
    let a := |q|
    let e : Int := floorLog2 a - 52
    s * (roundHalfEven (a * pow2 (-e)) : ℚ) * pow2 e

/-- Round a positive-or-zero-able rational to `k` significant decimal digits,
ties to even.  Used to model both Python `Decimal` context arithmetic
(28 significant digits) and the shortest-round-trip `repr` of floats. -/
def roundSig (q : ℚ) (k : Nat) : ℚ :=
  if q = 0 then 0
  else
    let s : ℚ := if q < 0 then -1 else 1
    let a := |q|
    let e : Int := floorLog10 a - (k - 1 : Nat)
    s * (roundHalfEven (a * pow10 (-e)) : ℚ) * pow10 e

/-- Python `Decimal` addition in the default context: exact sum rounded to 28
significant digits, ties to even. -/
def decAdd (x y : ℚ) : ℚ := roundSig (x + y) 28

/-- Helper for `pyRepr`: try significant-digit counts `k, k+1, ...` until the
rounded decimal converts back to the given float value. -/
def pyReprFrom (x : ℚ) : Nat → Nat → ℚ
  | _, 0 => x
  | k, fuel + 1 =>
    let c := roundSig x k
    if fl c = x then c else pyReprFrom x (k + 1) fuel

/-- Value of `Decimal(str(x))` for a float `x`: the shortest decimal (up to 17
significant digits) that rounds back to `x`, i.e. CPython's `repr` of a float
read back as an exact decimal. -/
def pyRepr (x : ℚ) : ℚ := pyReprFrom x 1 17

/-! ## Data model (`Database._init` schema) -/

/-- Row of the `categories` table:
`id INTEGER PRIMARY KEY AUTOINCREMENT, name TEXT NOT NULL UNIQUE,
kind TEXT NOT NULL CHECK(kind IN ('expense','income'))`. -/
structure Category where
  id : Nat
  name : String
  kind : String
  deriving DecidableEq, Repr

/-- Row of the `transactions` table:
`id INTEGER PRIMARY KEY AUTOINCREMENT, dt TEXT NOT NULL, kind TEXT NOT NULL
CHECK(...), amount REAL NOT NULL, category_id INTEGER, description TEXT,
created_at TEXT NOT NULL DEFAULT (datetime('now'))`.  The `amount` field holds
the exact rational value of the stored binary64 REAL. -/
structure Transaction where
  id : Nat
  dt : String
  kind : String
  amount : ℚ
  category_id : Option Nat
  description : Option String
  created_at : String
  deriving DecidableEq, Repr

/-- State of the SQLite database: both tables in rowid order together with the
AUTOINCREMENT counters (SQLite never reuses an AUTOINCREMENT id). -/
structure DB where
  cats : List Category
  txs : List Transaction
  nextCatId : Nat
  nextTxId : Nat
  deriving DecidableEq, Repr

/-- The freshly created database, before seeding: AUTOINCREMENT starts at 1. -/
def emptyDB : DB := ⟨[], [], 1, 1⟩

/-- Values admitted by the `CHECK(kind IN ('expense','income'))` constraints. -/
def validKind (k : String) : Bool := k = "expense" || k = "income"

/-- Errors surfaced by the store (both reach Python as
`sqlite3.IntegrityError`): a UNIQUE violation on `categories.name`, or a CHECK
violation on a `kind` column. -/
inductive DBErr where
  | duplicateName
  | checkViolation
  deriving DecidableEq, Repr

deriving instance DecidableEq for Except

/-! ## Store operations (`Database` methods) -/

/-- `Database.add_cat`: `INSERT INTO categories (name, kind) VALUES (?, ?)`.
The CHECK constraint and the UNIQUE constraint on `name` (BINARY collation,
hence case-sensitive exact match) can each reject the row. -/
def DB.add_cat (db : DB) (name kind : String) : Except DBErr DB :=
  if ¬ validKind kind then .error .checkViolation
  else if db.cats.any (·.name = name) then .error .duplicateName
  else .ok { db with
    cats := db.cats ++ [⟨db.nextCatId, name, kind⟩],
    nextCatId := db.nextCatId + 1 }

/-- `Database.edit_cat`: `UPDATE categories SET name=?, kind=? WHERE id=?`.
When no row has the given id the statement succeeds and changes nothing;
constraints are only evaluated on actually updated rows. -/
def DB.edit_cat (db : DB) (cid : Nat) (name kind : String) : Except DBErr DB :=
  if db.cats.all (·.id ≠ cid) then .ok db
  else if ¬ validKind kind then .error .checkViolation
  else if db.cats.any (fun c => c.id ≠ cid ∧ c.name = name) then .error .duplicateName
  else .ok { db with
    cats := db.cats.map (fun c =>
      if c.id = cid then { c with name := name, kind := kind } else c) }

/-- `Database.del_cat`: `DELETE FROM categories WHERE id=?`.  The connection
never enables `PRAGMA foreign_keys`, so the declared `ON DELETE SET NULL`
action does not run: transactions are left untouched, keeping any dangling
`category_id`. -/
def DB.del_cat (db : DB) (cid : Nat) : DB :=
  { db with cats := db.cats.filter (·.id ≠ cid) }

/-- `Database.add_tx`: inserts `(dt, kind, float(amount), cat_id, desc)`; the
amount is converted by Python `float(...)`, modelled by `fl`.  `created_at` is
filled from the wall clock (`datetime('now')`), passed here explicitly.
Foreign keys are not enforced, so any `cat` value is accepted. -/
def DB.add_tx (db : DB) (dt kind : String) (amount : ℚ) (cat : Option Nat)
    (desc : Option String) (now : String) : Except DBErr DB :=
  if ¬ validKind kind then .error .checkViolation
  else .ok { db with
    txs := db.txs ++ [⟨db.nextTxId, dt, kind, fl amount, cat, desc, now⟩],
    nextTxId := db.nextTxId + 1 }

/-- `Database.edit_tx`: `UPDATE transactions SET ... WHERE id=?`.  On an
absent id the statement succeeds and changes nothing. -/
def DB.edit_tx (db : DB) (tid : Nat) (dt kind : String) (amount : ℚ)
    (cat : Option Nat) (desc : Option String) : Except DBErr DB :=
  if db.txs.all (·.id ≠ tid) then .ok db
  else if ¬ validKind kind then .error .checkViolation
  else .ok { db with
    txs := db.txs.map (fun t =>
      if t.id = tid then
        { t with dt := dt, kind := kind, amount := fl amount,
                 category_id := cat, description := desc }
      else t) }

/-- `Database.del_tx`: `DELETE FROM transactions WHERE id=?`. -/
def DB.del_tx (db : DB) (tid : Nat) : DB :=
  { db with txs := db.txs.filter (·.id ≠ tid) }

/-- The `SELECT * FROM transactions WHERE id=?` + `fetchone()` lookup used by
`MainWindow.edit_tx` (the spec's `getTransaction`). -/
def DB.get_transaction (db : DB) (tid : Nat) : Option Transaction :=
  db.txs.find? (·.id = tid)

/-! ## Schema initialization and default seeding -/

/-- The fixed default category list of `Database._create_defaults`. -/
def defaultCats : List (String × String) :=
  [("Продукты", "expense"), ("Кафе и рестораны", "expense"),
   ("Транспорт", "expense"), ("Развлечения", "expense"),
   ("Зарплата", "income"), ("Подарки", "income"),
   ("Проценты/Дивиденды", "income")]

/-- One `INSERT OR IGNORE INTO categories (name, kind) VALUES (?, ?)`: the row
is silently skipped when the name already exists (the UNIQUE constraint fires
and `OR IGNORE` swallows it), and a skipped insert does not consume an
AUTOINCREMENT id. -/
def seedOne (db : DB) (p : String × String) : DB :=
  if db.cats.any (·.name = p.1) then db
  else { db with
    cats := db.cats ++ [⟨db.nextCatId, p.1, p.2⟩],
    nextCatId := db.nextCatId + 1 }

/-- `Database._init` followed by `Database._create_defaults`: the
`CREATE TABLE IF NOT EXISTS` statements leave an existing schema unchanged
(the schema is the `DB` type itself here), then each default category is
inserted with `INSERT OR IGNORE` in order. -/
def initSeed (db : DB) : DB := defaultCats.foldl seedOne db

/-- Multiplicity of a category name in the table. -/
def countName (n : String) (cs : List Category) : Nat :=
  (cs.filter (·.name = n)).length

/-- The UNIQUE constraint on `categories.name`: pairwise distinct names. -/
def NameUnique (db : DB) : Prop := db.cats.Pairwise (·.name ≠ ·.name)

/-! ## Text ordering (SQLite BINARY collation) -/

/-- Lexicographic order on character lists by codepoint.  On UTF-8 encoded
text, byte-wise BINARY comparison agrees with codepoint-lexicographic
comparison, so this is the order SQLite applies to `dt` values. -/
def strLtL : List Char → List Char → Bool
  | [], [] => false
  | [], _ :: _ => true
  | _ :: _, [] => false
  | a :: as, b :: bs =>
    a.toNat < b.toNat || (a.toNat = b.toNat && strLtL as bs)

/-- Strict BINARY-collation order on strings. -/
def strLt (a b : String) : Bool := strLtL a.toList b.toList

/-- Reflexive BINARY-collation order on strings (SQL `<=`). -/
def strLe (a b : String) : Bool := strLt a b || a = b

/-! ## Query engine: `Database.find_tx` -/

/-- ASCII-only lower-casing, the case folding SQLite's built-in `LIKE`
applies (characters beyond ASCII are compared verbatim). -/
def asciiLower (c : Char) : Char :=
  if 'A' ≤ c ∧ c ≤ 'Z' then Char.ofNat (c.toNat + 32) else c

/-- Fuel-driven SQL `LIKE` matcher: `%` matches any character sequence, `_`
any single character, and letters match up to ASCII case.  Every recursive
call shrinks `pattern.length + target.length`, so
`fuel = pattern.length + target.length + 1` always suffices. -/
def likeMatchF : Nat → List Char → List Char → Bool
  | 0, _, _ => false
  | fuel + 1, p, t =>
    match p, t with
    | [], t => t.isEmpty
    | '%' :: p', t =>
      likeMatchF fuel p' t ||
        (match t with
         | [] => false
         | _ :: t' => likeMatchF fuel ('%' :: p') t')
    | '_' :: p', t =>
      match t with
      | [] => false
      | _ :: t' => likeMatchF fuel p' t'
    | c :: p', t =>
      match t with
      | [] => false
      | d :: t' => (asciiLower c = asciiLower d) && likeMatchF fuel p' t'

/-- The condition `x LIKE '%text%'` produced by `find_tx` for a text search:
the pattern is the searched text spliced between two `%` wildcards. -/
def sqlLike (text target : String) : Bool :=
  let p := '%' :: (text.toList ++ ['%'])
  likeMatchF (p.length + target.toList.length + 1) p target.toList

/-- Result row of `find_tx`: `t.*` plus the LEFT JOINed `category_name`. -/
abbrev Row := Transaction × Option String

/-- The `LEFT JOIN categories c ON c.id=t.category_id` lookup: the category
name, or `none` when the reference is null or dangling (`id` is the primary
key, so at most one row can match). -/
def DB.catName (db : DB) (cid : Option Nat) : Option String :=
  match cid with
  | none => none
  | some i => (db.cats.find? (·.id = i)).map (·.name)

/-- All transactions joined with their category names, in rowid order. -/
def DB.joinRows (db : DB) : List Row :=
  db.txs.map (fun t => (t, db.catName t.category_id))

/-- Python truthiness of an optional string argument: `if start:` skips the
filter both for `None` and for the empty string. -/
def strPresent (o : Option String) : Bool := o.getD "" ≠ ""

/-- Python truthiness of an optional id argument: `if category:` skips the
filter both for `None` and for `0` (AUTOINCREMENT ids are never 0). -/
def natPresent (o : Option Nat) : Bool := o.getD 0 ≠ 0

/-- The WHERE clause built by `Database.find_tx`, as one conjunction: date
bounds are inclusive text comparisons, the category filter is an equality
test on `category_id` (false on NULL), `kind` only filters when it is one of
the two valid kinds, and the text filter is
`description LIKE '%text%' OR c.name LIKE '%text%'` (false on NULLs). -/
def rowMatches (s e : Option String) (c : Option Nat) (k txt : Option String)
    (r : Row) : Bool :=
  (if strPresent s then strLe (s.getD "") r.1.dt else true) &&
  (if strPresent e then strLe r.1.dt (e.getD "") else true) &&
  (if natPresent c then r.1.category_id = some (c.getD 0) else true) &&
  (match k with
   | some ks => if validKind ks then r.1.kind = ks else true
   | none => true) &&
  (if strPresent txt then
    (match r.1.description with
     | some d => sqlLike (txt.getD "") d
     | none => false) ||
    (match r.2 with
     | some n => sqlLike (txt.getD "") n
     | none => false)
   else true)

/-- The `ORDER BY dt DESC, id DESC` order on result rows, with BINARY
collation on the date text. -/
def rowLe (a b : Row) : Prop :=
  strLt b.1.dt a.1.dt = true ∨ (a.1.dt = b.1.dt ∧ b.1.id ≤ a.1.id)

instance : DecidableRel rowLe := fun a b => by
  unfold rowLe; infer_instance

/-- `Database.find_tx`: LEFT JOIN with the category name, the dynamically
assembled WHERE conjunction, then `ORDER BY dt DESC, id DESC`. -/
def DB.find_tx (db : DB) (s e : Option String) (c : Option Nat)
    (k txt : Option String) : List Row :=
  List.insertionSort rowLe (db.joinRows.filter (rowMatches s e c k txt))

/-! ## Query engine: `Database.get_balance` -/

/-- The optional inclusive date bounds shared by `get_balance` (and
`cat_sums`), with Python truthiness on the arguments. -/
def txInRange (s e : Option String) (t : Transaction) : Bool :=
  (if strPresent s then strLe (s.getD "") t.dt else true) &&
  (if strPresent e then strLe t.dt (e.getD "") else true)

/-- The signed amount `CASE WHEN kind='income' THEN amount ELSE -amount END`
(binary64 negation is exact). -/
def txSigned (t : Transaction) : ℚ :=
  if t.kind = "income" then t.amount else -t.amount

/-- SQLite `SUM` over a REAL column: binary64 accumulation in scan order,
each partial sum correctly rounded. -/
def floatSum (l : List ℚ) : ℚ := l.foldl (fun a b => fl (a + b)) 0

/-- Insert a date into an ascending duplicate-free list, as performed by the
`GROUP BY dt ORDER BY dt` temporary b-tree. -/
def insDate (x : String) : List String → List String
  | [] => [x]
  | y :: ys =>
    if strLt x y then x :: y :: ys
    else if x = y then y :: ys
    else y :: insDate x ys

/-- The distinct dates of a row list, ascending. -/
def datesSorted (l : List String) : List String := l.foldr insDate []

/-- The per-date `SUM(CASE WHEN kind='income' THEN amount ELSE -amount END)`:
a binary64 sum over the group's rows in scan order. -/
def dailyDelta (rows : List Transaction) (d : String) : ℚ :=
  floatSum ((rows.filter (·.dt = d)).map txSigned)

/-- The Python accumulation loop of `get_balance`: the running total is a
`Decimal` updated by `total += Decimal(str(delta))` and emitted as
`float(total)` for every date. -/
def balanceScan (rows : List Transaction) : List String → ℚ → List (String × ℚ)
  | [], _ => []
  | d :: ds, total =>
    let total' := decAdd total (pyRepr (dailyDelta rows d))
    (d, fl total') :: balanceScan rows ds total'

/-- `Database.get_balance`: per-date signed deltas (binary64 SQL sums) within
the optional bounds, ascending by date, accumulated into a running `Decimal`
total converted to float for output. -/
def DB.get_balance (db : DB) (s e : Option String) : List (String × ℚ) :=
  let rows := db.txs.filter (txInRange s e)
  balanceScan rows (datesSorted (rows.map (·.dt))) 0

/-! ## Amount parsing (`EditTransactionWindow.get_info`) -/

/-- Values of Python `Decimal` relevant to parsing: finite values and the
special values `±Infinity` and `NaN` that the `Decimal` constructor also
accepts. -/
inductive PyDec where
  | fin (q : ℚ)
  | pinf
  | ninf
  | nan
  deriving DecidableEq, Repr

/-- ASCII digit test. -/
def isAsciiDigit (c : Char) : Bool := '0' ≤ c && c ≤ '9'

/-- Numeric value of a digit string. -/
def digitsVal (l : List Char) : Nat :=
  l.foldl (fun a c => a * 10 + (c.toNat - 48)) 0

/-- Strip one optional leading sign, returning the sign as `1` or `-1`. -/
def splitSign : List Char → Int × List Char
  | '+' :: r => (1, r)
  | '-' :: r => (-1, r)
  | r => (1, r)

/-- Parse an unsigned decimal numeric string
`digits [. digits] | . digits`, with an optional `e`/`E` exponent. -/
def parseUnsignedNumeric (cs : List Char) : Option ℚ :=
  let ip := cs.takeWhile isAsciiDigit
  let rest := cs.dropWhile isAsciiDigit
  let hasDot := match rest with
    | '.' :: _ => true
    | _ => false
  let fp := if hasDot then (rest.drop 1).takeWhile isAsciiDigit else []
  let rest2 := if hasDot then (rest.drop 1).dropWhile isAsciiDigit else rest
  if ip = [] ∧ fp = [] then none
  else
    let mant : ℚ := (digitsVal ip : ℚ) + (digitsVal fp : ℚ) * pow10 (-(fp.length : Int))
    match rest2 with
    | [] => some mant
    | c :: r =>
      if c = 'e' ∨ c = 'E' then
        let (es, r2) := splitSign r
        let ed := r2.takeWhile isAsciiDigit
        let r3 := r2.dropWhile isAsciiDigit
        if ed = [] ∨ r3 ≠ [] then none
        else some (mant * pow10 (es * (digitsVal ed : Int)))
      else none

/-- The Python `Decimal(str)` constructor on an already-stripped string:
underscores are removed throughout, then the input is read as an optionally
signed numeric string or one of the special values `inf`/`infinity`,
`nan`/`snan` (case-insensitive, optional diagnostic digits).  Non-ASCII digit
forms accepted by CPython are outside this model. -/
def parsePyDec (s : List Char) : Option PyDec :=
  let cs := s.filter (· ≠ '_')
  let (sg, rest) := splitSign cs
  let low := rest.map asciiLower
  if low = "inf".toList ∨ low = "infinity".toList then
    some (if sg = -1 then .ninf else .pinf)
  else if (low.take 3 = "nan".toList ∧ (low.drop 3).all isAsciiDigit) ∨
      (low.take 4 = "snan".toList ∧ (low.drop 4).all isAsciiDigit) then
    some .nan
  else
    (parseUnsignedNumeric rest).map (fun q => .fin (sg * q))

/-- Outcome of the amount branch of `EditTransactionWindow.get_info`:
parse failure raises `ValueError` (the spec's ParseError), a non-positive
value raises `ValueError` (the spec's ValidationError), and comparing `NaN`
with `0` raises `decimal.InvalidOperation`. -/
inductive AmountOutcome where
  | okFin (q : ℚ)
  | okPInf
  | parseError
  | validationError
  | invalidOp
  deriving DecidableEq, Repr

/-- Python `str.strip()` whitespace (the ASCII whitespace characters; other
Unicode whitespace is outside this model). -/
def isPySpace (c : Char) : Bool :=
  c = ' ' || c = '\t' || c = '\n' || c = '\r' ||
  c = Char.ofNat 11 || c = Char.ofNat 12

/-- Python `.strip()`: drop leading and trailing whitespace. -/
def pyStrip (cs : List Char) : List Char :=
  ((cs.dropWhile isPySpace).reverse.dropWhile isPySpace).reverse

/-- Python `.replace(",", ".")`: every comma becomes a dot. -/
def commaToDot (cs : List Char) : List Char :=
  cs.map (fun c => if c = ',' then '.' else c)

/-- The amount path of `get_info`:
`raw = self.amount.text().strip().replace(",", ".")`, then
`money = Decimal(raw)`, then `if money <= 0: raise ValueError(...)`. -/
def getInfoAmount (input : String) : AmountOutcome :=
  let raw := commaToDot (pyStrip input.toList)
  match parsePyDec raw with
  | none => .parseError
  | some .nan => .invalidOp
  | some .ninf => .validationError
  | some .pinf => .okPInf
  | some (.fin q) => if q ≤ 0 then .validationError else .okFin q

/-- The `MainWindow.add_tx` flow around the dialog: `get_info` either raises
(the handler shows a message box and nothing is inserted) or returns the
parsed amount that is passed to `Database.add_tx`.  The `okPInf` branch would
insert a row with REAL value `+inf`, which lies outside this finite-amount
model, hence `none`. -/
def addTransactionUI (db : DB) (input dt kind : String) (cat : Option Nat)
    (desc : Option String) (now : String) : Option DB :=
  match getInfoAmount input with
  | .okFin q => some ((db.add_tx dt kind q cat desc now).toOption.getD db)
  | .okPInf => none
  | _ => some db

/-- Amount inputs the error-handling claim quantifies over: text the parser
rejects, or text parsing to a value `≤ 0` (finite non-positive values and
`-Infinity`; `NaN` is incomparable and `+Infinity` is positive, so neither is
a value `≤ 0`). -/
def badAmountInput (input : String) : Bool :=
  match parsePyDec (commaToDot (pyStrip input.toList)) with
  | none => true
  | some (.fin q) => decide (q ≤ 0)
  | some .ninf => true
  | _ => false

/-- Running a store call whose errors the UI catches: the state is the new
one on success and the old one when an error was raised. -/
def runStore (db : DB) (r : Except DBErr DB) : DB := r.toOption.getD db

/-! ## Spec-side definitions, for refinement comparisons -/

/-- Modelled from the spec's words: case-insensitive prefix test (ASCII
folding), the building block of the literal substring match the spec
describes for `textSearch`. -/
def startsWithCI : List Char → List Char → Bool
  | [], _ => true
  | _ :: _, [] => false
  | a :: as, b :: bs => (asciiLower a = asciiLower b) && startsWithCI as bs

/-- Modelled from the spec's words: `needle` occurs in `hay` as a literal
substring, compared case-insensitively. -/
def substrCI (needle : List Char) : List Char → Bool
  | [] => needle.isEmpty
  | c :: rest => startsWithCI needle (c :: rest) || substrCI needle rest

/-- Modelled from the spec's words (amended): the conjunction of the present
filter fields of `findTransactions` — inclusive BINARY-collation date bounds,
`category_id` equality, kind equality for a valid kind argument, and an SQL
`LIKE '%text%'` match (ASCII-case-insensitive, `%`/`_` wildcards) against the
description or the joined category name. -/
def specMatches (s e : Option String) (c : Option Nat) (k txt : Option String)
    (r : Row) : Prop :=
  (∀ s0, s = some s0 → s0 ≠ "" → strLe s0 r.1.dt = true) ∧
  (∀ e0, e = some e0 → e0 ≠ "" → strLe r.1.dt e0 = true) ∧
  (∀ c0, c = some c0 → c0 ≠ 0 → r.1.category_id = some c0) ∧
  (∀ k0, k = some k0 → validKind k0 = true → r.1.kind = k0) ∧
  (∀ t0, txt = some t0 → t0 ≠ "" →
    (∃ d, r.1.description = some d ∧ sqlLike t0 d = true) ∨
    (∃ n, r.2 = some n ∧ sqlLike t0 n = true))

/-- Modelled from the spec's words (amended): `runningBalance` as the list of
dates zipped with the running decimal totals of the per-date float deltas,
written with `List.scanl` instead of the program's accumulator loop. -/
def specBalance (db : DB) (s e : Option String) : List (String × ℚ) :=
  let rows := db.txs.filter (txInRange s e)
  let ds := datesSorted (rows.map (·.dt))
  ds.zip ((((ds.map (fun d => pyRepr (dailyDelta rows d))).scanl decAdd 0).tail).map fl)

/-- Sortedness by strict BINARY-collation order (ascending, duplicate-free). -/
def StrSorted (l : List String) : Prop := l.Pairwise (fun a b => strLt a b = true)

/-! ## Concrete stores used by the claims -/

/-- A store with one category (id 1) referenced by one transaction, the
failing input for the category-deletion claim. -/
def c1DB : DB :=
  ⟨[⟨1, "Food", "expense"⟩],
   [⟨1, "2024-01-05", "expense", 5, some 1, some "lunch", "t0"⟩], 2, 2⟩

/-- The running-balance example of the spec: transactions
`(2024-01-01, income, 100)`, `(2024-01-01, expense, 30)`,
`(2024-01-02, income, 20)` (all three amounts exactly representable). -/
def balanceExampleDB : DB :=
  ⟨[], [⟨1, "2024-01-01", "income", 100, none, none, "t0"⟩,
        ⟨2, "2024-01-01", "expense", 30, none, none, "t0"⟩,
        ⟨3, "2024-01-02", "income", 20, none, none, "t0"⟩], 1, 4⟩

/-- A store whose single date holds the amounts `float(Decimal("0.1"))` and
`float(Decimal("0.2"))` as stored by `add_tx`, the counterexample input for
the exact-decimal-sum claim. -/
def c2DB : DB :=
  ⟨[], [⟨1, "2024-01-01", "income", fl (1 / 10), none, none, "t0"⟩,
        ⟨2, "2024-01-01", "income", fl (2 / 10), none, none, "t0"⟩], 1, 3⟩

/-- A store with a transaction whose description is `axb`, the
counterexample input for the literal-substring text-search claim. -/
def c3DB : DB :=
  ⟨[], [⟨1, "2024-04-01", "income", 2, none, some "axb", "t0"⟩], 1, 2⟩

/-- A store with a transaction whose description is `aXb`, the witness input
for the wildcard text-search claim. -/
def c10DB : DB :=
  ⟨[], [⟨1, "2024-03-05", "expense", 5, none, some "aXb", "t0"⟩], 1, 2⟩

/-! ## Order lemmas for the BINARY collation -/

set_option maxRecDepth 100000

theorem strLtL_trans (a : List Char) :
    ∀ b c, strLtL a b = true → strLtL b c = true → strLtL a c = true := by
  induction a with
  | nil =>
    intro b c hab hbc
    cases b <;> cases c <;> simp_all [strLtL]
  | cons x xs ih =>
    intro b c hab hbc
    cases b with
    | nil => simp [strLtL] at hab
    | cons y ys =>
      cases c with
      | nil => simp [strLtL] at hbc
      | cons z zs =>
        simp only [strLtL, Bool.or_eq_true, Bool.and_eq_true,
          decide_eq_true_eq] at hab hbc ⊢
        rcases hab with h1 | ⟨h1e, h1r⟩
        · rcases hbc with h2 | ⟨h2e, h2r⟩
          · exact Or.inl (h1.trans h2)
          · exact Or.inl (h2e ▸ h1)
        · rcases hbc with h2 | ⟨h2e, h2r⟩
          · exact Or.inl (by rw [h1e]; exact h2)
          · exact Or.inr ⟨h1e.trans h2e, ih ys zs h1r h2r⟩

theorem strLtL_connex (a : List Char) :
    ∀ b, strLtL a b = false → strLtL b a = false → a = b := by
  induction a with
  | nil =>
    intro b h1 _
    cases b with
    | nil => rfl
    | cons y ys => simp [strLtL] at h1
  | cons x xs ih =>
    intro b h1 h2
    cases b with
    | nil => simp [strLtL] at h2
    | cons y ys =>
      simp only [strLtL, Bool.or_eq_false_iff, Bool.and_eq_false_iff,
        decide_eq_false_iff_not] at h1 h2
      have hxy : x.toNat = y.toNat :=
        Nat.le_antisymm (Nat.not_lt.mp h2.1) (Nat.not_lt.mp h1.1)
      have hxs : xs = ys := by
        rcases h1.2 with h | h
        · exact absurd hxy (by simpa using h)
        · rcases h2.2 with h' | h'
          · exact absurd hxy.symm (by simpa using h')
          · exact ih ys h h'
      have hc : x = y := Char.eq_of_val_eq (UInt32.toNat.inj hxy)
      rw [hc, hxs]

theorem strLt_trans {a b c : String} (h1 : strLt a b = true)
    (h2 : strLt b c = true) : strLt a c = true :=
  strLtL_trans a.toList b.toList c.toList h1 h2

theorem strLt_connex {a b : String} (h1 : strLt a b = false)
    (h2 : strLt b a = false) : a = b :=
  String.ext (strLtL_connex a.toList b.toList h1 h2)

instance : IsTotal Row rowLe := by
  constructor
  intro a b
  by_cases h1 : strLt b.1.dt a.1.dt = true
  · exact Or.inl (Or.inl h1)
  · by_cases h2 : strLt a.1.dt b.1.dt = true
    · exact Or.inr (Or.inl h2)
    · have he : a.1.dt = b.1.dt :=
        strLt_connex (Bool.eq_false_iff.mpr h2) (Bool.eq_false_iff.mpr h1)
      rcases Nat.le_total b.1.id a.1.id with h | h
      · exact Or.inl (Or.inr ⟨he, h⟩)
      · exact Or.inr (Or.inr ⟨he.symm, h⟩)

instance : IsTrans Row rowLe := by
  constructor
  intro a b c hab hbc
  rcases hab with h1 | ⟨h1, h1'⟩
  · rcases hbc with h2 | ⟨h2, h2'⟩
    · exact Or.inl (strLt_trans h2 h1)
    · exact Or.inl (h2 ▸ h1)
  · rcases hbc with h2 | ⟨h2, h2'⟩
    · exact Or.inl (by rw [h1]; exact h2)
    · exact Or.inr ⟨h1.trans h2, h2'.trans h1'⟩

/-! ## Claim C1: category deletion and referencing transactions -/

/-- Claim C1, behaviour of the code at the failing input: `del_cat 1` removes
the category and deletes no transaction, but — since the connection never
enables foreign-key enforcement — the referencing transaction keeps
`category_id = 1` as a dangling reference instead of having it set to null. -/
theorem del_cat_leaves_dangling_reference :
    (c1DB.del_cat 1).cats = [] ∧
    (c1DB.del_cat 1).txs = c1DB.txs ∧
    ∃ t ∈ (c1DB.del_cat 1).txs, t.category_id = some 1 := by
  refine ⟨by decide, by decide, ⟨c1DB.txs.head (by decide), by decide, by decide⟩⟩

/-! ## Claim C6: duplicate category names -/

/-- Claim C6: adding a category whose name already exists (case-sensitive
exact match under BINARY collation) fails with the UNIQUE-constraint error —
the spec's DuplicateNameError — for either valid kind, and the store is
unchanged, so the existing category keeps its id, name and kind and nothing
is inserted. -/
theorem add_cat_duplicate_name_fails (db : DB) (n k : String) (c : Category)
    (hc : c ∈ db.cats) (hn : c.name = n) (hk : validKind k = true) :
    db.add_cat n k = .error .duplicateName ∧
    runStore db (db.add_cat n k) = db := by
  have hany : db.cats.any (·.name = n) = true := by
    rw [List.any_eq_true]
    exact ⟨c, hc, by simp [hn]⟩
  have h1 : db.add_cat n k = .error .duplicateName := by
    unfold DB.add_cat
    rw [hk]
    simp [hany]
  exact ⟨h1, by rw [runStore, h1]; rfl⟩

/-- Witness for the duplicate-name theorem at a concrete store. -/
theorem add_cat_duplicate_name_fails_witness :
    c1DB.add_cat "Food" "income" = .error .duplicateName ∧
    runStore c1DB (c1DB.add_cat "Food" "income") = c1DB :=
  add_cat_duplicate_name_fails c1DB "Food" "income" ⟨1, "Food", "expense"⟩
    (by decide) (by decide) (by decide)

/-! ## Claim C7: updates on absent ids -/

/-- Counterexample to claim C7: on an id absent from the store, both
`edit_cat` and `edit_tx` succeed silently as no-ops (the UPDATE matches no
rows), contradicting the claimed NotFoundError. -/
theorem edit_absent_id_succeeds_counterexample :
    emptyDB.edit_cat 1 "A" "expense" = .ok emptyDB ∧
    emptyDB.edit_tx 1 "2024-01-01" "expense" 1 none none = .ok emptyDB := by
  decide

/-- Claim C7 as amended: for every id absent from the store,
`updateCategory` and `updateTransaction` raise no error and silently succeed
as no-ops, leaving the store unchanged. -/
theorem edit_absent_id_is_noop (db : DB) (cid tid : Nat) (n k dt k2 : String)
    (a : ℚ) (c : Option Nat) (d : Option String)
    (hc : ∀ x ∈ db.cats, x.id ≠ cid) (ht : ∀ x ∈ db.txs, x.id ≠ tid) :
    db.edit_cat cid n k = .ok db ∧ db.edit_tx tid dt k2 a c d = .ok db := by
  constructor
  · unfold DB.edit_cat
    have h : db.cats.all (·.id ≠ cid) = true := by
      rw [List.all_eq_true]; intro x hx; simpa using hc x hx
    simp only [h, if_true]
  · unfold DB.edit_tx
    have h : db.txs.all (·.id ≠ tid) = true := by
      rw [List.all_eq_true]; intro x hx; simpa using ht x hx
    simp only [h, if_true]

/-- Witness for the no-op update theorem at a concrete store and id. -/
theorem edit_absent_id_is_noop_witness :
    c1DB.edit_cat 7 "A" "income" = .ok c1DB ∧
    c1DB.edit_tx 7 "2024-02-02" "income" 3 none none = .ok c1DB :=
  edit_absent_id_is_noop c1DB 7 7 "A" "income" "2024-02-02" "income" 3 none none
    (by decide) (by decide)

/-! ## Claim C8: idempotent initialization and seeding -/

theorem seedOne_present_mem (db : DB) (p : String × String) {n : String}
    (h : ∃ c ∈ db.cats, c.name = n) : ∃ c ∈ (seedOne db p).cats, c.name = n := by
  unfold seedOne
  split
  · exact h
  · obtain ⟨c, hc, hn⟩ := h
    exact ⟨c, List.mem_append_left _ hc, hn⟩

theorem seedOne_has (db : DB) (p : String × String) :
    ∃ c ∈ (seedOne db p).cats, c.name = p.1 := by
  unfold seedOne
  split
  · rename_i hcond
    rw [List.any_eq_true] at hcond
    obtain ⟨c, hc, hn⟩ := hcond
    exact ⟨c, hc, by simpa using hn⟩
  · exact ⟨⟨db.nextCatId, p.1, p.2⟩, List.mem_append_right _ (by simp), rfl⟩

theorem foldl_seed_present (l : List (String × String)) (db : DB) {n : String}
    (h : ∃ c ∈ db.cats, c.name = n) :
    ∃ c ∈ (l.foldl seedOne db).cats, c.name = n := by
  induction l generalizing db with
  | nil => exact h
  | cons p ps ih => exact ih _ (seedOne_present_mem db p h)

theorem foldl_seed_has (l : List (String × String)) (db : DB)
    (p : String × String) (hp : p ∈ l) :
    ∃ c ∈ (l.foldl seedOne db).cats, c.name = p.1 := by
  induction l generalizing db with
  | nil => cases hp
  | cons q qs ih =>
    rcases List.mem_cons.mp hp with h | h
    · subst h
      exact foldl_seed_present qs _ (seedOne_has db p)
    · exact ih _ h

theorem seedOne_of_present (db : DB) (p : String × String)
    (h : ∃ c ∈ db.cats, c.name = p.1) : seedOne db p = db := by
  have hany : db.cats.any (·.name = p.1) = true := by
    rw [List.any_eq_true]
    obtain ⟨c, hc, hn⟩ := h
    exact ⟨c, hc, by simpa using hn⟩
  unfold seedOne
  simp only [hany, if_true]

theorem foldl_seed_of_present (l : List (String × String)) (db : DB)
    (h : ∀ p ∈ l, ∃ c ∈ db.cats, c.name = p.1) : l.foldl seedOne db = db := by
  induction l with
  | nil => rfl
  | cons p ps ih =>
    have h1 : seedOne db p = db := seedOne_of_present db p (h p (by simp))
    rw [List.foldl_cons, h1]
    exact ih (fun q hq => h q (by simp [hq]))

theorem seedOne_nameUnique (db : DB) (p : String × String) (h : NameUnique db) :
    NameUnique (seedOne db p) := by
  unfold seedOne
  split
  · exact h
  · rename_i hcond
    unfold NameUnique at h ⊢
    rw [List.pairwise_append]
    refine ⟨h, List.pairwise_singleton _ _, ?_⟩
    intro a ha b hb
    rw [List.mem_singleton] at hb
    subst hb
    intro hEq
    apply hcond
    rw [List.any_eq_true]
    exact ⟨a, ha, by simpa using hEq⟩

theorem foldl_seed_nameUnique (l : List (String × String)) (db : DB)
    (h : NameUnique db) : NameUnique (l.foldl seedOne db) := by
  induction l generalizing db with
  | nil => exact h
  | cons p ps ih => exact ih _ (seedOne_nameUnique db p h)

/-- Claim C8: from any state satisfying the schema's name-uniqueness
constraint, running schema initialization plus default seeding twice produces
the same state as running it once; name uniqueness is preserved (so the seven
defaults appear at most once each), every default name is present afterwards,
and no error is raised (`initSeed` is total). -/
theorem initSeed_idempotent (db : DB) (h : NameUnique db) :
    initSeed (initSeed db) = initSeed db ∧
    NameUnique (initSeed db) ∧
    ∀ p ∈ defaultCats, ∃ c ∈ (initSeed db).cats, c.name = p.1 := by
  refine ⟨?_, foldl_seed_nameUnique defaultCats db h,
    fun p hp => foldl_seed_has defaultCats db p hp⟩
  unfold initSeed
  exact foldl_seed_of_present defaultCats _
    (fun p hp => foldl_seed_has defaultCats db p hp)

/-- Witness for the seeding theorem on the fresh empty database. -/
theorem initSeed_idempotent_witness :
    initSeed (initSeed emptyDB) = initSeed emptyDB ∧
    NameUnique (initSeed emptyDB) ∧
    ∀ p ∈ defaultCats, ∃ c ∈ (initSeed emptyDB).cats, c.name = p.1 :=
  initSeed_idempotent emptyDB (List.Pairwise.nil)

/-! ## Claim C9: add/get round-trip -/

theorem find?_append_none {α : Type} (p : α → Bool) :
    ∀ (l1 l2 : List α), l1.find? p = none → (l1 ++ l2).find? p = l2.find? p := by
  intro l1
  induction l1 with
  | nil => intro l2 _; rfl
  | cons a as ih =>
    intro l2 h
    by_cases hpa : p a = true
    · rw [List.find?_cons_of_pos _ hpa] at h
      exact absurd h (by simp)
    · rw [List.find?_cons_of_neg _ hpa] at h
      rw [List.cons_append, List.find?_cons_of_neg _ hpa]
      exact ih l2 h

/-- Counterexample to claim C9: inserting amount `Decimal("0.1")` stores
`float(Decimal("0.1"))`, so the retrieved amount differs from the supplied
decimal value `1/10`. -/
theorem add_tx_roundtrip_counterexample :
    (runStore emptyDB
        (emptyDB.add_tx "2024-01-03" "expense" (1 / 10) none none "t0")).get_transaction 1 =
      some ⟨1, "2024-01-03", "expense", fl (1 / 10), none, none, "t0"⟩ ∧
    fl (1 / 10) ≠ 1 / 10 := by
  decide

/-- Claim C9 as amended: for every valid input, `addTransaction` followed by
`getTransaction` on the new id returns a record equal to the inserted values
in every field except the amount, which equals the binary64 rounding
`fl q` of the supplied decimal value (hence is exactly the supplied value
precisely when that value is representable in binary64). -/
theorem add_tx_roundtrip (db : DB) (dt kind : String) (q : ℚ)
    (cat : Option Nat) (desc : Option String) (now : String)
    (hk : validKind kind = true) (hid : ∀ t ∈ db.txs, t.id ≠ db.nextTxId) :
    ∃ db2, db.add_tx dt kind q cat desc now = .ok db2 ∧
      db2.get_transaction db.nextTxId =
        some ⟨db.nextTxId, dt, kind, fl q, cat, desc, now⟩ := by
  refine ⟨{ db with
    txs := db.txs ++ [⟨db.nextTxId, dt, kind, fl q, cat, desc, now⟩],
    nextTxId := db.nextTxId + 1 }, ?_, ?_⟩
  · unfold DB.add_tx
    simp [hk]
  · unfold DB.get_transaction
    have hnone : db.txs.find? (·.id = db.nextTxId) = none := by
      rw [List.find?_eq_none]
      intro x hx
      simpa using hid x hx
    simp only [find?_append_none _ db.txs _ hnone]
    rw [List.find?_cons_of_pos _ (by simp)]

/-- Witness for the round-trip theorem: amount `1/4` is representable, and
the record read back equals the inserted one in all fields. -/
theorem add_tx_roundtrip_witness :
    (∃ db2, emptyDB.add_tx "2024-01-02" "income" (1 / 4) none (some "d") "t1" = .ok db2 ∧
      db2.get_transaction 1 = some ⟨1, "2024-01-02", "income", fl (1 / 4), none, some "d", "t1"⟩) ∧
    fl (1 / 4) = 1 / 4 :=
  ⟨add_tx_roundtrip emptyDB "2024-01-02" "income" (1 / 4) none (some "d") "t1"
    (by decide) (by decide), by decide⟩

/-! ## Claim C5: invalid amounts are rejected before storage -/

/-- Claim C5: for every amount input that the parser rejects or that parses
to a value `≤ 0`, the add-transaction path raises the parse `ValueError` or
the positivity `ValueError` inside `get_info`, before any store call, and the
store is unchanged. -/
theorem bad_amount_never_persisted (db : DB) (input dt kind : String)
    (cat : Option Nat) (desc : Option String) (now : String)
    (h : badAmountInput input = true) :
    addTransactionUI db input dt kind cat desc now = some db ∧
    (getInfoAmount input = .parseError ∨ getInfoAmount input = .validationError) := by
  unfold badAmountInput at h
  simp only [String.toList] at h
  cases hp : parsePyDec (commaToDot (pyStrip input.data)) with
  | none =>
    constructor
    · simp [addTransactionUI, getInfoAmount, String.toList, hp]
    · exact Or.inl (by simp [getInfoAmount, String.toList, hp])
  | some v =>
    cases v with
    | fin q =>
      rw [hp] at h
      simp only [decide_eq_true_eq] at h
      constructor
      · simp [addTransactionUI, getInfoAmount, String.toList, hp, h]
      · exact Or.inr (by simp [getInfoAmount, String.toList, hp, h])
    | pinf => rw [hp] at h; cases h
    | ninf =>
      constructor
      · simp [addTransactionUI, getInfoAmount, String.toList, hp]
      · exact Or.inr (by simp [getInfoAmount, String.toList, hp])
    | nan => rw [hp] at h; cases h

/-- Witness for the rejected-amount theorem: the non-numeric text `abc` and
the store `c1DB` are unchanged by the failed call. -/
theorem bad_amount_never_persisted_witness :
    badAmountInput "abc" = true ∧
    (addTransactionUI c1DB "abc" "2024-01-01" "expense" none none "t2" = some c1DB ∧
     (getInfoAmount "abc" = .parseError ∨ getInfoAmount "abc" = .validationError)) :=
  ⟨by decide,
    bad_amount_never_persisted c1DB "abc" "2024-01-01" "expense" none none "t2" (by decide)⟩

/-! ## Claim C10: LIKE wildcards reach the public text search -/

/-- Claim C10: the search text is spliced into an SQL LIKE pattern, so for
the textSearch input `a_b` — containing the `_` wildcard — `find_tx` returns
a transaction whose description `aXb` does not contain `a_b` as a literal
substring (case-insensitively), and whose category name is null. -/
theorem find_tx_wildcard_matches_nonliteral :
    c10DB.find_tx none none none none (some "a_b") =
      [(⟨1, "2024-03-05", "expense", 5, none, some "aXb", "t0"⟩, none)] ∧
    substrCI "a_b".toList "aXb".toList = false := by
  decide

/-! ## Claim C3: filter semantics and ordering of find_tx -/

theorem dateFromCond_iff (s : Option String) (r : Row) :
    (if strPresent s then strLe (s.getD "") r.1.dt else true) = true ↔
    (∀ s0, s = some s0 → s0 ≠ "" → strLe s0 r.1.dt = true) := by
  rcases s with _ | s0
  · simp [strPresent]
  · by_cases h : s0 = "" <;> simp [strPresent, h]

theorem dateToCond_iff (e : Option String) (r : Row) :
    (if strPresent e then strLe r.1.dt (e.getD "") else true) = true ↔
    (∀ e0, e = some e0 → e0 ≠ "" → strLe r.1.dt e0 = true) := by
  rcases e with _ | e0
  · simp [strPresent]
  · by_cases h : e0 = "" <;> simp [strPresent, h]

theorem catCond_iff (c : Option Nat) (r : Row) :
    (if natPresent c then decide (r.1.category_id = some (c.getD 0)) else true) = true ↔
    (∀ c0, c = some c0 → c0 ≠ 0 → r.1.category_id = some c0) := by
  rcases c with _ | c0
  · simp [natPresent]
  · by_cases h : c0 = 0 <;> simp [natPresent, h]

theorem kindCond_iff (k : Option String) (r : Row) :
    (match k with
     | some ks => if validKind ks then decide (r.1.kind = ks) else true
     | none => true) = true ↔
    (∀ k0, k = some k0 → validKind k0 = true → r.1.kind = k0) := by
  rcases k with _ | k0
  · simp
  · by_cases h : validKind k0 = true <;> simp [h]

theorem textCond_iff (txt : Option String) (r : Row) :
    (if strPresent txt then
      (match r.1.description with
       | some d => sqlLike (txt.getD "") d
       | none => false) ||
      (match r.2 with
       | some n => sqlLike (txt.getD "") n
       | none => false)
     else true) = true ↔
    (∀ t0, txt = some t0 → t0 ≠ "" →
      (∃ d, r.1.description = some d ∧ sqlLike t0 d = true) ∨
      (∃ n, r.2 = some n ∧ sqlLike t0 n = true)) := by
  rcases txt with _ | t0
  · simp [strPresent]
  · by_cases h : t0 = ""
    · simp [strPresent, h]
    · rcases hd : r.1.description with _ | d <;> rcases hn : r.2 with _ | nm <;>
        simp [strPresent, h, hd, hn]

theorem rowMatches_iff (s e : Option String) (c : Option Nat)
    (k txt : Option String) (r : Row) :
    rowMatches s e c k txt r = true ↔ specMatches s e c k txt r := by
  unfold rowMatches specMatches
  rw [Bool.and_eq_true, Bool.and_eq_true, Bool.and_eq_true, Bool.and_eq_true,
    dateFromCond_iff, dateToCond_iff, catCond_iff, kindCond_iff, textCond_iff]
  tauto

theorem rowMatches_none (r : Row) :
    rowMatches none none none none none r = true := by
  simp [rowMatches, strPresent, natPresent]

/-- Counterexample to claim C3: with textSearch `a%b`, `find_tx` returns the
transaction whose description is `axb`, although `a%b` occurs neither in the
description nor in a category name as a literal (case-insensitive) substring
— the `%` acts as an SQL LIKE wildcard. -/
theorem find_tx_text_search_counterexample :
    c3DB.find_tx none none none none (some "a%b") =
      [(⟨1, "2024-04-01", "income", 2, none, some "axb", "t0"⟩, none)] ∧
    substrCI "a%b".toList "axb".toList = false := by
  decide

/-- Claim C3 as amended: `find_tx` returns exactly the joined rows satisfying
the conjunction of the present filter fields — inclusive date bounds,
category-id equality, kind equality, and an SQL LIKE `%text%` match (`%`/`_`
wildcards, ASCII-only case folding) against description or category name —
always ordered by date descending then id descending, and with no filters it
returns exactly all transactions in that order. -/
theorem find_tx_amended :
    (∀ (db : DB) s e c k txt, List.Sorted rowLe (db.find_tx s e c k txt)) ∧
    (∀ (db : DB) s e c k txt r,
      r ∈ db.find_tx s e c k txt ↔ r ∈ db.joinRows ∧ specMatches s e c k txt r) ∧
    (∀ db : DB, (db.find_tx none none none none none).Perm db.joinRows) := by
  refine ⟨?_, ?_, ?_⟩
  · intro db s e c k txt
    exact List.sorted_insertionSort rowLe _
  · intro db s e c k txt r
    unfold DB.find_tx
    rw [List.mem_insertionSort, List.mem_filter, rowMatches_iff]
  · intro db
    unfold DB.find_tx
    have hfil : db.joinRows.filter (rowMatches none none none none none) = db.joinRows :=
      List.filter_eq_self.mpr (fun r _ => rowMatches_none r)
    rw [hfil]
    exact List.perm_insertionSort rowLe _

/-! ## Claim C2: running balance -/

theorem balanceScan_map_fst (rows : List Transaction) :
    ∀ (ds : List String) (t : ℚ), (balanceScan rows ds t).map Prod.fst = ds := by
  intro ds
  induction ds with
  | nil => intro t; rfl
  | cons d ds ih => intro t; simp [balanceScan, ih]

theorem mem_insDate (x y : String) :
    ∀ l : List String, y ∈ insDate x l ↔ y = x ∨ y ∈ l := by
  intro l
  induction l with
  | nil => simp [insDate]
  | cons z zs ih =>
    unfold insDate
    by_cases h1 : strLt x z = true
    · simp [h1]
    · by_cases h2 : x = z
      · subst h2
        simp only [h1, if_false, if_true]
        simp [List.mem_cons]
      · simp only [h1, h2, if_false]
        simp [List.mem_cons, ih]
        tauto

theorem strLt_total_of_ne {x y : String} (h1 : strLt x y = false) (h2 : x ≠ y) :
    strLt y x = true := by
  by_cases h : strLt y x = true
  · exact h
  · exact absurd (strLt_connex h1 (Bool.eq_false_iff.mpr h)) h2

theorem insDate_sorted (x : String) :
    ∀ l : List String, StrSorted l → StrSorted (insDate x l) := by
  intro l
  induction l with
  | nil => intro _; exact List.pairwise_singleton _ _
  | cons z zs ih =>
    intro h
    unfold StrSorted at h ⊢
    unfold insDate
    by_cases h1 : strLt x z = true
    · simp only [h1, if_true]
      constructor
      · intro b hb
        rcases List.mem_cons.mp hb with rfl | hb2
        · exact h1
        · exact strLt_trans h1 (List.rel_of_pairwise_cons h hb2)
      · exact h
    · by_cases h2 : x = z
      · subst h2
        simpa [h1] using h
      · simp only [h1, h2, if_false]
        have hz : strLt z x = true :=
          strLt_total_of_ne (Bool.eq_false_iff.mpr h1) h2
        constructor
        · intro b hb
          rcases (mem_insDate x b zs).mp hb with rfl | hb2
          · exact hz
          · exact List.rel_of_pairwise_cons h hb2
        · exact ih h.of_cons

theorem datesSorted_sorted (l : List String) : StrSorted (datesSorted l) := by
  unfold datesSorted
  induction l with
  | nil => exact List.Pairwise.nil
  | cons d ds ih => exact insDate_sorted d _ ih

theorem mem_datesSorted (y : String) (l : List String) :
    y ∈ datesSorted l ↔ y ∈ l := by
  unfold datesSorted
  induction l with
  | nil => simp
  | cons d ds ih =>
    rw [List.foldr_cons, mem_insDate, ih]
    simp [List.mem_cons]

theorem balanceScan_zip (rows : List Transaction) :
    ∀ (ds : List String) (t : ℚ),
      balanceScan rows ds t =
        ds.zip ((((ds.map (fun d => pyRepr (dailyDelta rows d))).scanl decAdd t).tail).map fl) := by
  intro ds
  induction ds with
  | nil => intro t; rfl
  | cons d ds ih =>
    intro t
    rw [List.map_cons, List.scanl_cons]
    simp only [List.singleton_append, List.tail_cons]
    cases ds with
    | nil => simp [balanceScan]
    | cons d2 ds2 =>
      rw [List.map_cons, List.scanl_cons]
      simp only [List.singleton_append, List.map_cons, List.zip_cons_cons]
      show balanceScan rows (d :: d2 :: ds2) t = _
      rw [balanceScan]
      rw [ih]
      rw [List.map_cons, List.scanl_cons]
      simp only [List.singleton_append, List.tail_cons]

theorem get_balance_eq_spec (db : DB) (s e : Option String) :
    db.get_balance s e = specBalance db s e := by
  unfold DB.get_balance specBalance
  exact balanceScan_zip _ _ 0

/-- Counterexample to claim C2: over one date holding the stored amounts
`float(Decimal("0.1"))` and `float(Decimal("0.2"))` (both income), the code's
daily delta is the binary64 sum, so the emitted cumulative value equals
neither the exact decimal sum `3/10` of the supplied amounts nor the exact
rational sum of the two stored floats: the delta is not an exact decimal
sum. -/
theorem get_balance_counterexample :
    c2DB.get_balance none none = [("2024-01-01", (5404319552844596 : ℚ) / 2 ^ 54)] ∧
    (5404319552844596 : ℚ) / 2 ^ 54 ≠ fl (1 / 10) + fl (2 / 10) ∧
    (5404319552844596 : ℚ) / 2 ^ 54 ≠ 3 / 10 := by
  decide

/-- Claim C2 as amended: `get_balance` groups the in-range transactions by
calendar date, computes each date's signed delta (income positive, expense
negative) as a binary64 floating-point sum, accumulates the running total in
exact decimal over the deltas' shortest decimal representations, and returns
the `(date, cumulative total)` pairs ordered by strictly ascending date,
omitting dates with no transactions; over the spec's example it yields
`[(2024-01-01, 70.00), (2024-01-02, 90.00)]`. -/
theorem get_balance_amended :
    (∀ (db : DB) s e, db.get_balance s e = specBalance db s e) ∧
    (∀ (db : DB) s e, StrSorted ((db.get_balance s e).map Prod.fst)) ∧
    (∀ (db : DB) s e d, d ∈ (db.get_balance s e).map Prod.fst ↔
      ∃ t ∈ db.txs, txInRange s e t = true ∧ t.dt = d) ∧
    balanceExampleDB.get_balance none none =
      [("2024-01-01", 70), ("2024-01-02", 90)] := by
  refine ⟨fun db s e => get_balance_eq_spec db s e, ?_, ?_, by decide⟩
  · intro db s e
    unfold DB.get_balance
    rw [balanceScan_map_fst]
    exact datesSorted_sorted _
  · intro db s e d
    unfold DB.get_balance
    rw [balanceScan_map_fst, mem_datesSorted]
    constructor
    · intro hd
      obtain ⟨t, ht, rfl⟩ := List.mem_map.mp hd
      have hm := List.mem_filter.mp ht
      exact ⟨t, hm.1, hm.2, rfl⟩
    · rintro ⟨t, ht, hr, rfl⟩
      exact List.mem_map.mpr ⟨t, List.mem_filter.mpr ⟨ht, hr⟩, rfl⟩
